import Mathlib

/-!
Shallow embedding of the pay-per-request x402 repository.

Embedded sources:
* `AIAccessMarketplace` (Solidity, src/unnamed/part_002): pricing constants,
  premium expiry ledger, credit ledger, per-request replay set.
* `X402Processor` (Solidity, src/unnamed/part_003): EIP-712 payment
  authorization verification and settlement.
* backend `checkAccess` (src/backend/src/services/blockchain.js) and the
  generate route's credit-debit step (src/unnamed/part_008).
* backend `verifyWalletAuth` middleware (src/backend/src/middleware/auth.js).

Machine integers are modelled as `Nat` with explicit `% 2 ^ 256` exactly where
the source uses Solidity `unchecked` arithmetic; checked Solidity arithmetic
does not occur on any modelled path (the only additions/subtractions in the
contracts are inside `unchecked` blocks).  Reverts are modelled with `Except`:
an `Except.error` result corresponds to a reverted transaction, which leaves
the contract storage unchanged (captured by the `step` wrappers below).
-/

/-- Word size of the EVM: all uint256 arithmetic is reduced modulo this. -/
def UINT256 : Nat := 2 ^ 256

namespace Marketplace

/-- Custom errors of `AIAccessMarketplace` (part_002 lines 100-120). -/
inductive MarketErr
  | IncorrectPayment
  | RequestIdAlreadyUsed
  | NoCreditsAvailable
  | InvalidDuration
  | InvalidPackCount
  | NotOwner
  | WithdrawFailed
deriving DecidableEq, Repr

/-- Events of `AIAccessMarketplace` (part_002 lines 70-95). -/
inductive MarketEvent
  | RequestPaid (user requestId amount timestamp : Nat)
  | PremiumPurchased (user durationDays expiresAt : Nat)
  | CreditsPurchased (user packs totalCredits : Nat)
  | CreditUsed (user remaining : Nat)
deriving DecidableEq, Repr

/-- Storage of `AIAccessMarketplace`: the three mappings and the immutable
owner (part_002 lines 50-62).  Addresses and bytes32 request ids are
modelled as `Nat`. -/
structure MarketState where
  premiumExpiry : Nat → Nat
  credits : Nat → Nat
  usedRequestIds : Nat → Bool
  owner : Nat

/-- Constant `REQUEST_PRICE = 0.001 ether` (part_002 line 32). -/
def REQUEST_PRICE : Nat := 10 ^ 15

/-- Constant `PREMIUM_7_DAYS_PRICE = 0.01 ether` (part_002 line 35). -/
def PREMIUM_7_DAYS_PRICE : Nat := 10 ^ 16

/-- Constant `PREMIUM_30_DAYS_PRICE = 0.03 ether` (part_002 line 38). -/
def PREMIUM_30_DAYS_PRICE : Nat := 3 * 10 ^ 16

/-- Constant `CREDIT_PACK_PRICE = 0.008 ether` (part_002 line 41). -/
def CREDIT_PACK_PRICE : Nat := 8 * 10 ^ 15

/-- Constant `CREDITS_PER_PACK = 10` (part_002 line 44). -/
def CREDITS_PER_PACK : Nat := 10

/-- Function `payPerRequest(bytes32 requestId)` (part_002 lines 145-161):
reverts `IncorrectPayment` unless `msg.value == REQUEST_PRICE`, then reverts
`RequestIdAlreadyUsed` if the replay flag is set, else sets the flag and
emits `RequestPaid`. -/
def payPerRequest (s : MarketState) (msgSender msgValue requestId now : Nat) :
    Except MarketErr (MarketState × MarketEvent) :=
  if msgValue ≠ REQUEST_PRICE then
    .error .IncorrectPayment
  else if s.usedRequestIds requestId then
    .error .RequestIdAlreadyUsed
  else
    .ok ({ s with usedRequestIds := fun r => if r = requestId then true else s.usedRequestIds r },
         .RequestPaid msgSender requestId msgValue now)

/-- Price selection at the head of `buyPro` (part_002 lines 171-179):
`7 → PREMIUM_7_DAYS_PRICE`, `30 → PREMIUM_30_DAYS_PRICE`, otherwise revert
`InvalidDuration`. -/
def proPrice (durationDays : Nat) : Except MarketErr Nat :=
  if durationDays = 7 then .ok PREMIUM_7_DAYS_PRICE
  else if durationDays = 30 then .ok PREMIUM_30_DAYS_PRICE
  else .error .InvalidDuration

/-- Function `buyPro(uint256 durationDays)` (part_002 lines 170-199):
after the duration and exact-payment checks, extends the expiry from
`max(premiumExpiry[msg.sender], block.timestamp)` by `durationDays * 1 days`,
the addition performed `unchecked`, hence modulo `2 ^ 256`. -/
def buyPro (s : MarketState) (msgSender msgValue durationDays now : Nat) :
    Except MarketErr (MarketState × MarketEvent) :=
  match proPrice durationDays with
  | .error e => .error e
  | .ok price =>
    if msgValue ≠ price then
      .error .IncorrectPayment
    else
      let startTime := if s.premiumExpiry msgSender > now then s.premiumExpiry msgSender else now
      let newExpiry := (startTime + durationDays * 86400) % UINT256
      .ok ({ s with premiumExpiry := fun a => if a = msgSender then newExpiry else s.premiumExpiry a },
           .PremiumPurchased msgSender durationDays newExpiry)

/-- Function `buyCredits(uint256 packs)` (part_002 lines 208-232): rejects
`packs == 0`, computes price and credits in an `unchecked` block (modulo
`2 ^ 256`), requires exact payment, then adds the credits (again
`unchecked`). -/
def buyCredits (s : MarketState) (msgSender msgValue packs : Nat) :
    Except MarketErr (MarketState × MarketEvent) :=
  if packs = 0 then
    .error .InvalidPackCount
  else
    let price := (packs * CREDIT_PACK_PRICE) % UINT256
    let newCredits := (packs * CREDITS_PER_PACK) % UINT256
    if msgValue ≠ price then
      .error .IncorrectPayment
    else
      .ok ({ s with credits := fun a => if a = msgSender then (s.credits a + newCredits) % UINT256 else s.credits a },
           .CreditsPurchased msgSender packs newCredits)

/-- Function `useCredit(address user)` (part_002 lines 241-254).  The source
performs NO `msg.sender` check here (its comment: "In production, this would
need access control. For hackathon MVP, we trust the backend caller."), so the
`msgSender` argument is deliberately unused.  The `unchecked` decrement is
modelled modulo `2 ^ 256`. -/
def useCredit (s : MarketState) (msgSender user : Nat) :
    Except MarketErr (MarketState × MarketEvent) :=
  if s.credits user = 0 then
    .error .NoCreditsAvailable
  else
    let newBal := (s.credits user + UINT256 - 1) % UINT256
    .ok ({ s with credits := fun a => if a = user then newBal else s.credits a },
         .CreditUsed user newBal)

/-- Function `useCredits(address user, uint256 amount)` (part_002 lines
268-285).  Like `useCredit`, the source performs NO `msg.sender` check, so the
`msgSender` argument is deliberately unused.  `amount == 0` reverts
`InvalidPackCount` (the source reuses that error), insufficient balance
reverts `NoCreditsAvailable`, else the balance is decremented `unchecked`. -/
def useCredits (s : MarketState) (msgSender user amount : Nat) :
    Except MarketErr (MarketState × MarketEvent) :=
  if amount = 0 then
    .error .InvalidPackCount
  else if s.credits user < amount then
    .error .NoCreditsAvailable
  else
    let newBal := (s.credits user + UINT256 - amount) % UINT256
    .ok ({ s with credits := fun a => if a = user then newBal else s.credits a },
         .CreditUsed user newBal)

/-- Function `grantPremium(address user, uint256 durationDays)` (part_002
lines 386-402): owner-only, same expiry-extension logic as `buyPro`. -/
def grantPremium (s : MarketState) (msgSender user durationDays now : Nat) :
    Except MarketErr (MarketState × MarketEvent) :=
  if msgSender ≠ s.owner then
    .error .NotOwner
  else
    let startTime := if s.premiumExpiry user > now then s.premiumExpiry user else now
    let newExpiry := (startTime + durationDays * 86400) % UINT256
    .ok ({ s with premiumExpiry := fun a => if a = user then newExpiry else s.premiumExpiry a },
         .PremiumPurchased user durationDays newExpiry)

/-- Function `grantCredits(address user, uint256 amount)` (part_002 lines
409-419): owner-only, `unchecked` addition of credits, emits
`CreditsPurchased(user, 1, amount)`. -/
def grantCredits (s : MarketState) (msgSender user amount : Nat) :
    Except MarketErr (MarketState × MarketEvent) :=
  if msgSender ≠ s.owner then
    .error .NotOwner
  else
    .ok ({ s with credits := fun a => if a = user then (s.credits a + amount) % UINT256 else s.credits a },
         .CreditsPurchased user 1 amount)

/-- View `hasPremium(address)` (part_002 lines 296-298):
`premiumExpiry[user] > block.timestamp`. -/
def hasPremium (s : MarketState) (user now : Nat) : Bool :=
  s.premiumExpiry user > now

/-- View `isRequestIdUsed(bytes32)` (part_002 lines 323-325). -/
def isRequestIdUsed (s : MarketState) (requestId : Nat) : Bool :=
  s.usedRequestIds requestId

/-- One external state-changing call of `AIAccessMarketplace`.  `withdraw`
only moves ether (not modelled storage); the views are pure. -/
inductive MarketAction
  | payPerRequestA (msgSender msgValue requestId now : Nat)
  | buyProA (msgSender msgValue durationDays now : Nat)
  | buyCreditsA (msgSender msgValue packs : Nat)
  | useCreditA (msgSender user : Nat)
  | useCreditsA (msgSender user amount : Nat)
  | grantPremiumA (msgSender user durationDays now : Nat)
  | grantCreditsA (msgSender user amount : Nat)
  | withdrawA (msgSender : Nat)
deriving DecidableEq, Repr

/-- Dispatch one external call to the function that implements it.
`withdraw` (part_002 lines 423-433) checks the owner and transfers the ether
balance; it touches none of the modelled storage. -/
def runMarket (s : MarketState) : MarketAction → Except MarketErr MarketState
  | .payPerRequestA msgSender msgValue requestId now =>
      (payPerRequest s msgSender msgValue requestId now).map Prod.fst
  | .buyProA msgSender msgValue durationDays now =>
      (buyPro s msgSender msgValue durationDays now).map Prod.fst
  | .buyCreditsA msgSender msgValue packs =>
      (buyCredits s msgSender msgValue packs).map Prod.fst
  | .useCreditA msgSender user =>
      (useCredit s msgSender user).map Prod.fst
  | .useCreditsA msgSender user amount =>
      (useCredits s msgSender user amount).map Prod.fst
  | .grantPremiumA msgSender user durationDays now =>
      (grantPremium s msgSender user durationDays now).map Prod.fst
  | .grantCreditsA msgSender user amount =>
      (grantCredits s msgSender user amount).map Prod.fst
  | .withdrawA msgSender =>
      if msgSender ≠ s.owner then .error .NotOwner else .ok s

/-- EVM transaction semantics: a reverted call leaves storage unchanged. -/
def step (s : MarketState) (a : MarketAction) : MarketState :=
  match runMarket s a with
  | .ok s1 => s1
  | .error _ => s

/-- Initial storage after the constructor (part_002 lines 127-129): all
mappings empty, owner = deployer. -/
def initState (deployer : Nat) : MarketState :=
  { premiumExpiry := fun _ => 0
    credits := fun _ => 0
    usedRequestIds := fun _ => false
    owner := deployer }

end Marketplace

namespace Processor

/-- Revert causes of `X402Processor` (part_003): the two `require` messages
and a revert bubbled up from the USDC token contract. -/
inductive ProcErr
  | InvalidSignatureLength
  | InvalidPaymentSignature
  | TokenTransferReverted
deriving DecidableEq, Repr

/-- Struct `USDCAuth` (part_003 lines 102-109): the EIP-3009 token-transfer
authorization forwarded verbatim to the token contract. -/
structure USDCAuth where
  validAfter : Nat
  validBefore : Nat
  nonce : Nat
  v : Nat
  r : Nat
  s : Nat
deriving DecidableEq, Repr

/-- Cryptographic and external-contract primitives the processor calls,
kept abstract: `paymentDigest` stands for the keccak256 EIP-712 digest
construction of `verifyPaymentSignature` (part_003 lines 87-93, folding in
the `DOMAIN_SEPARATOR` and `PAYMENT_TYPEHASH`), `ecrecover` for the EVM
precompile (part_003 line 97), `paymentHash` for
`keccak256(abi.encode(from, amount, nonce))` (part_003 line 145), and
`transferOk` for whether the external
`usdc.transferWithAuthorization(from, receiver, amount, auth)` call
(part_003 lines 133-143) succeeds. -/
structure ProcEnv where
  paymentDigest : Nat → Nat → Nat → Nat → String → Nat
  ecrecover : Nat → Nat → Nat → Nat → Nat
  paymentHash : Nat → Nat → Nat → Nat
  transferOk : Nat → Nat → Nat → USDCAuth → Bool

/-- Storage of `X402Processor`: the per-signer used-nonce map
(`mapping(address => mapping(bytes32 => bool)) usedNonces`, part_003 line 35)
and the immutable receiver (line 38). -/
structure ProcState where
  usedNonces : Nat → Nat → Bool
  receiver : Nat

/-- Event `PaymentProcessed` (part_003 lines 43-47). -/
inductive ProcEvent
  | PaymentProcessed (fromAddr amount paymentHash : Nat)
deriving DecidableEq, Repr

/-- Big-endian interpretation of a byte list, as `mload` reads a 32-byte
word from memory. -/
def bytesToWord (bs : List Nat) : Nat :=
  bs.foldl (fun acc b => acc * 256 + b % 256) 0

/-- Function `splitSignature(bytes memory sig)` (part_003 lines 151-163):
`require(sig.length == 65, "Invalid signature length")`, then `r` is bytes
0-31, `s` bytes 32-63, `v` byte 64. -/
def splitSignature (sig : List Nat) : Except ProcErr (Nat × Nat × Nat) :=
  if sig.length = 65 then
    .ok (bytesToWord (sig.take 32), bytesToWord ((sig.drop 32).take 32),
         ((sig.drop 64).headD 0) % 256)
  else
    .error .InvalidSignatureLength

/-- Function `verifyPaymentSignature` (part_003 lines 68-100): returns
`false` if the nonce is already used for `fromAddr`, `false` if
`block.timestamp > deadline`, otherwise splits the signature (which REVERTS
when `sig.length ≠ 65`), recovers the signer from the EIP-712 digest and
compares it with `fromAddr`. -/
def verifyPaymentSignature (env : ProcEnv) (st : ProcState)
    (fromAddr amount nonce deadline : Nat) (memo : String) (signature : List Nat)
    (now : Nat) : Except ProcErr Bool :=
  if st.usedNonces fromAddr nonce then
    .ok false
  else if now > deadline then
    .ok false
  else
    match splitSignature signature with
    | .error e => .error e
    | .ok (r, s, v) =>
      let digest := env.paymentDigest fromAddr amount nonce deadline memo
      .ok (decide (env.ecrecover digest v r s = fromAddr))

/-- Function `processPayment` (part_003 lines 114-146):
`require(verifyPaymentSignature(...), "Invalid payment signature")`, then
marks `usedNonces[from][nonce] = true`, then calls
`usdc.transferWithAuthorization(from, receiver, amount, usdcAuth)` whose
revert aborts the whole transaction (nonce left unconsumed), then emits
`PaymentProcessed`. -/
def processPayment (env : ProcEnv) (st : ProcState)
    (fromAddr amount nonce deadline : Nat) (memo : String) (signature : List Nat)
    (usdcAuth : USDCAuth) (now : Nat) : Except ProcErr (ProcState × ProcEvent) :=
  match verifyPaymentSignature env st fromAddr amount nonce deadline memo signature now with
  | .error e => .error e
  | .ok false => .error .InvalidPaymentSignature
  | .ok true =>
    let st1 : ProcState :=
      { st with usedNonces := fun a n =>
          if a = fromAddr ∧ n = nonce then true else st.usedNonces a n }
    if env.transferOk fromAddr st.receiver amount usdcAuth then
      .ok (st1, .PaymentProcessed fromAddr amount (env.paymentHash fromAddr amount nonce))
    else
      .error .TokenTransferReverted

/-- EVM transaction semantics for the processor: a reverted `processPayment`
leaves storage unchanged. -/
def stepProc (env : ProcEnv) (st : ProcState)
    (fromAddr amount nonce deadline : Nat) (memo : String) (signature : List Nat)
    (usdcAuth : USDCAuth) (now : Nat) : ProcState :=
  match processPayment env st fromAddr amount nonce deadline memo signature usdcAuth now with
  | .ok r => r.1
  | .error _ => st

end Processor

namespace Backend

/-- Request capabilities accepted by the generate route (part_008 lines
91-97 validate membership in `['text', 'image', 'video']` before
`checkAccess` is reached). -/
inductive Capability
  | text
  | image
  | video
deriving DecidableEq, Repr

/-- Table `CREDIT_COSTS = { text: 1, image: 3, video: 5 }` with the
`CREDIT_COSTS[capability] || 1` default (blockchain.js lines 33-37 and
317). -/
def creditCost : Capability → Nat
  | .text => 1
  | .image => 3
  | .video => 5

/-- Shape of `config.pricing` (src/unnamed/part_009): string amounts in
ether plus `creditsPerPack`. -/
structure BackendPricing where
  perRequest : String
  premium7Days : String
  premium30Days : String
  creditPack : String
  creditsPerPack : Nat
deriving DecidableEq, Repr

/-- Value of `config.pricing` (src/unnamed/part_009 lines 21-27). -/
def configPricing : BackendPricing :=
  { perRequest := "0.001"
    premium7Days := "0.01"
    premium30Days := "0.03"
    creditPack := "0.008"
    creditsPerPack := 10 }

/-- Result of `checkAccess` (blockchain.js lines 294-359): the `accessType`
values `'premium'`, `'credits'` (with `creditsUsed`/`creditsRemaining`),
`'per-request'`, or a deny carrying `config.pricing`. -/
inductive AccessDecision
  | premiumAccess
  | creditsAccess (creditsUsed creditsRemaining : Nat)
  | perRequestAccess
  | denied (pricing : BackendPricing)
deriving DecidableEq, Repr

/-- Function `checkAccess(address, requestId, capability)` (blockchain.js
lines 294-359), as a pure function of the ledger snapshot it reads:
`isPremium` is what `checkPremium` (contract `hasPremium`) returned,
`credits` what `getCredits` returned, `isRequestIdUsed` what
`verifyRequestPayment` consults.  Priority order, first match wins:
premium, then credits (`credits >= CREDIT_COSTS[capability] || 1`), then
per-request (only when a `requestId` was supplied and is marked used),
else deny with `config.pricing` attached. -/
def checkAccess (isPremium : Bool) (credits : Nat) (requestId : Option Nat)
    (isRequestIdUsed : Nat → Bool) (capability : Capability) : AccessDecision :=
  if isPremium then
    .premiumAccess
  else
    let requiredCredits := creditCost capability
    if credits ≥ requiredCredits then
      .creditsAccess requiredCredits (credits - requiredCredits)
    else
      match requestId with
      | some rid =>
        if isRequestIdUsed rid then .perRequestAccess else .denied configPricing
      | none => .denied configPricing

/-- Debit step of the generate route (part_008 lines 183-186): only when
`accessType === 'credits' && creditsUsed > 0` does the backend call
`consumeCredits(address, creditsUsed)`, which submits the contract call
`useCredits(address, amount)` from the backend signer (blockchain.js lines
146-162); any other decision performs no ledger write. -/
def generateDebit (s : Marketplace.MarketState) (backendSigner address : Nat)
    (d : AccessDecision) : Marketplace.MarketState :=
  match d with
  | .creditsAccess creditsUsed _ =>
    if creditsUsed > 0 then
      Marketplace.step s (.useCreditsA backendSigner address creditsUsed)
    else
      s
  | _ => s

/-- ASCII lowering used to model the JavaScript `toLowerCase()` call on hex
addresses (auth.js line 56), written over the character list so it
evaluates by kernel reduction. -/
def toLowerStr (str : String) : String := String.mk (str.data.map Char.toLower)

/-- Body fields `verifyWalletAuth` destructures (auth.js line 22); a field
absent from the JSON body is `none`. -/
structure AuthRequest where
  address : Option String
  signature : Option String
  message : Option String
  timestamp : Option Nat
deriving DecidableEq, Repr

/-- Outcomes of `verifyWalletAuth`: the 400 response, the three 401
responses, or `next()` with `req.verifiedAddress` attached. -/
inductive AuthOutcome
  | missingFields
  | signatureExpired
  | invalidSignature
  | signatureMismatch
  | authorized (verifiedAddress : String)
deriving DecidableEq, Repr

/-- JavaScript truthiness of an optional string field: absent and `""` are
falsy. -/
def truthyStr : Option String → Bool
  | none => false
  | some str => str ≠ ""

/-- JavaScript truthiness of an optional numeric field: absent and `0` are
falsy. -/
def truthyNat : Option Nat → Bool
  | none => false
  | some n => n ≠ 0

/-- Constant `maxAge = 5 * 60 * 1000` milliseconds (auth.js line 35). -/
def MAX_SIGNATURE_AGE_MS : Nat := 5 * 60 * 1000

/-- Tail of `verifyWalletAuth` after the age check (auth.js lines 45-66):
recover the signer via `verifySignature` (null on failure), 401 on failure,
401 on case-insensitive mismatch with the claimed address, else attach the
recovered address and continue. -/
def walletAuthRecover (recoverAddress : String → String → Option String)
    (addr sig msg : String) : AuthOutcome :=
  match recoverAddress msg sig with
  | none => .invalidSignature
  | some rec =>
    if toLowerStr rec ≠ toLowerStr addr then .signatureMismatch
    else .authorized rec

/-- Middleware `verifyWalletAuth` (auth.js lines 21-67): 400 when
`!address || !signature || !message`; then ONLY `if (timestamp)` (truthy)
is the signature age `Date.now() - timestamp` compared against the 5-minute
window (`Date.now() - timestamp` clamps at 0 in `Nat`, matching the JS
behavior that a future timestamp is not `> maxAge`); then signature
recovery and the case-insensitive address comparison. -/
def verifyWalletAuth (recoverAddress : String → String → Option String)
    (nowMs : Nat) (req : AuthRequest) : AuthOutcome :=
  if ¬ (truthyStr req.address ∧ truthyStr req.signature ∧ truthyStr req.message) then
    .missingFields
  else
    let addr := (req.address).getD ""
    let sig := (req.signature).getD ""
    let msg := (req.message).getD ""
    if truthyNat req.timestamp then
      if nowMs - (req.timestamp).getD 0 > MAX_SIGNATURE_AGE_MS then
        .signatureExpired
      else
        walletAuthRecover recoverAddress addr sig msg
    else
      walletAuthRecover recoverAddress addr sig msg

end Backend

namespace Marketplace

/-- Ledger state reached from a fresh deployment (owner = address 1) by one
successful `payPerRequest` from address 7 for request id 42 at time 100. -/
def usedState1 : MarketState :=
  step (initState 1) (.payPerRequestA 7 REQUEST_PRICE 42 100)

/-- Ledger state reached from a fresh deployment by the owner granting 5
credits to address 5. -/
def creditState : MarketState :=
  step (initState 1) (.grantCreditsA 1 5 5)

/-- Duration (in days) whose `unchecked` conversion to seconds wraps to
`2 ^ 256 - 128` modulo `2 ^ 256`: `WRAP_DURATION * 86400 ≡ -128 (mod 2 ^ 256)`. -/
def WRAP_DURATION : Nat :=
  734422047477422165418019673434733489624906847184849873768781898568708275957

/-- Ledger state reached from a fresh deployment by the owner calling
`grantPremium(5, WRAP_DURATION)` at time 0, leaving
`premiumExpiry[5] = 2 ^ 256 - 128`. -/
def bigExpiryState : MarketState :=
  step (initState 1) (.grantPremiumA 1 5 WRAP_DURATION 0)

end Marketplace

namespace Processor

/-- Concrete primitives for evaluating the processor: digest constantly 0,
recovery constantly returning address 5, a constant payment hash, and a
token contract whose transfers succeed. -/
def envW : ProcEnv :=
  { paymentDigest := fun _ _ _ _ _ => 0
    ecrecover := fun _ _ _ _ => 5
    paymentHash := fun _ _ _ => 0
    transferOk := fun _ _ _ _ => true }

/-- Fresh processor state: no nonce used, receiver = address 9. -/
def stFresh : ProcState :=
  { usedNonces := fun _ _ => false
    receiver := 9 }

/-- A well-formed 65-byte signature (all zero bytes). -/
def sigW : List Nat := List.replicate 65 0

/-- A concrete token-transfer authorization. -/
def authW : USDCAuth :=
  { validAfter := 0
    validBefore := 10 ^ 9
    nonce := 1
    v := 27
    r := 2
    s := 3 }

/-- Processor state after a successful settlement of nonce 11 for signer 5. -/
def stUsed : ProcState := stepProc envW stFresh 5 100 11 1000 "" sigW authW 500

end Processor

namespace Backend

/-- Concrete used-request-id lookup for evaluation: only id 42 is used. -/
def usedW : Nat → Bool := fun rid => rid = 42

/-- Concrete signature recovery for evaluation: the message "login" with
signature "sig1" recovers the checksummed address "0xAbCD"; everything else
fails. -/
def recoverW : String → String → Option String := fun msg sig =>
  if msg = "login" ∧ sig = "sig1" then some "0xAbCD" else none

/-- An authentication request body with no `timestamp` field. -/
def reqNoTs : AuthRequest :=
  { address := some "0xabcd"
    signature := some "sig1"
    message := some "login"
    timestamp := none }

/-- The same body with a stale `timestamp` of 1000 ms. -/
def reqOldTs : AuthRequest :=
  { reqNoTs with timestamp := some 1000 }

end Backend

namespace Marketplace

theorem payPerRequest_ok_used {s : MarketState} {msgSender msgValue requestId now : Nat}
    {r : MarketState × MarketEvent}
    (h : payPerRequest s msgSender msgValue requestId now = .ok r) (q : Nat) :
    r.1.usedRequestIds q = (if q = requestId then true else s.usedRequestIds q) := by
  simp only [payPerRequest] at h
  split at h
  · exact absurd h (by simp)
  · split at h
    · exact absurd h (by simp)
    · cases h
      rfl

theorem buyPro_ok_used {s : MarketState} {msgSender msgValue durationDays now : Nat}
    {r : MarketState × MarketEvent}
    (h : buyPro s msgSender msgValue durationDays now = .ok r) (q : Nat) :
    r.1.usedRequestIds q = s.usedRequestIds q := by
  simp only [buyPro] at h
  split at h
  · exact absurd h (by simp)
  · split at h
    · exact absurd h (by simp)
    · cases h
      rfl

theorem buyCredits_ok_used {s : MarketState} {msgSender msgValue packs : Nat}
    {r : MarketState × MarketEvent}
    (h : buyCredits s msgSender msgValue packs = .ok r) (q : Nat) :
    r.1.usedRequestIds q = s.usedRequestIds q := by
  simp only [buyCredits] at h
  split at h
  · exact absurd h (by simp)
  · split at h
    · exact absurd h (by simp)
    · cases h
      rfl

theorem useCredit_ok_used {s : MarketState} {msgSender user : Nat}
    {r : MarketState × MarketEvent}
    (h : useCredit s msgSender user = .ok r) (q : Nat) :
    r.1.usedRequestIds q = s.usedRequestIds q := by
  simp only [useCredit] at h
  split at h
  · exact absurd h (by simp)
  · cases h
    rfl

theorem useCredits_ok_used {s : MarketState} {msgSender user amount : Nat}
    {r : MarketState × MarketEvent}
    (h : useCredits s msgSender user amount = .ok r) (q : Nat) :
    r.1.usedRequestIds q = s.usedRequestIds q := by
  simp only [useCredits] at h
  split at h
  · exact absurd h (by simp)
  · split at h
    · exact absurd h (by simp)
    · cases h
      rfl

theorem grantPremium_ok_used {s : MarketState} {msgSender user durationDays now : Nat}
    {r : MarketState × MarketEvent}
    (h : grantPremium s msgSender user durationDays now = .ok r) (q : Nat) :
    r.1.usedRequestIds q = s.usedRequestIds q := by
  simp only [grantPremium] at h
  split at h
  · exact absurd h (by simp)
  · cases h
    rfl

theorem grantCredits_ok_used {s : MarketState} {msgSender user amount : Nat}
    {r : MarketState × MarketEvent}
    (h : grantCredits s msgSender user amount = .ok r) (q : Nat) :
    r.1.usedRequestIds q = s.usedRequestIds q := by
  simp only [grantCredits] at h
  split at h
  · exact absurd h (by simp)
  · cases h
    rfl

/-- Across every external call, a set used-flag stays set. -/
theorem step_preserves_used (s : MarketState) (a : MarketAction) (requestId : Nat)
    (h : s.usedRequestIds requestId = true) :
    (step s a).usedRequestIds requestId = true := by
  cases a with
  | payPerRequestA msgSender msgValue rid now =>
    rcases hE : payPerRequest s msgSender msgValue rid now with e | r
    · simp [step, runMarket, hE, Except.map, h]
    · simp only [step, runMarket, hE, Except.map]
      rw [payPerRequest_ok_used hE]
      split <;> simp [h]
  | buyProA msgSender msgValue durationDays now =>
    rcases hE : buyPro s msgSender msgValue durationDays now with e | r
    · simp [step, runMarket, hE, Except.map, h]
    · simp only [step, runMarket, hE, Except.map]
      rw [buyPro_ok_used hE]
      exact h
  | buyCreditsA msgSender msgValue packs =>
    rcases hE : buyCredits s msgSender msgValue packs with e | r
    · simp [step, runMarket, hE, Except.map, h]
    · simp only [step, runMarket, hE, Except.map]
      rw [buyCredits_ok_used hE]
      exact h
  | useCreditA msgSender user =>
    rcases hE : useCredit s msgSender user with e | r
    · simp [step, runMarket, hE, Except.map, h]
    · simp only [step, runMarket, hE, Except.map]
      rw [useCredit_ok_used hE]
      exact h
  | useCreditsA msgSender user amount =>
    rcases hE : useCredits s msgSender user amount with e | r
    · simp [step, runMarket, hE, Except.map, h]
    · simp only [step, runMarket, hE, Except.map]
      rw [useCredits_ok_used hE]
      exact h
  | grantPremiumA msgSender user durationDays now =>
    rcases hE : grantPremium s msgSender user durationDays now with e | r
    · simp [step, runMarket, hE, Except.map, h]
    · simp only [step, runMarket, hE, Except.map]
      rw [grantPremium_ok_used hE]
      exact h
  | grantCreditsA msgSender user amount =>
    rcases hE : grantCredits s msgSender user amount with e | r
    · simp [step, runMarket, hE, Except.map, h]
    · simp only [step, runMarket, hE, Except.map]
      rw [grantCredits_ok_used hE]
      exact h
  | withdrawA msgSender =>
    by_cases hw : msgSender ≠ s.owner <;> simp [step, runMarket, hw, h]

end Marketplace

/-- Claim C1 (amended): a successful `payPerRequest` marks its requestId
used; once the requestId is marked used, every later `payPerRequest` with
that requestId fails — with `RequestIdAlreadyUsed` when the sent amount is
exactly `REQUEST_PRICE`, and with `IncorrectPayment` otherwise, because the
amount check runs before the replay check — and no external call of the
contract ever clears a used flag. -/
theorem payPerRequest_single_use (s : Marketplace.MarketState) (requestId : Nat) :
    (∀ msgSender msgValue now r,
        Marketplace.payPerRequest s msgSender msgValue requestId now = .ok r →
        r.1.usedRequestIds requestId = true)
    ∧ (s.usedRequestIds requestId = true →
        (∀ msgSender msgValue now,
            Marketplace.payPerRequest s msgSender msgValue requestId now =
              .error (if msgValue = Marketplace.REQUEST_PRICE
                      then .RequestIdAlreadyUsed else .IncorrectPayment))
        ∧ ∀ a, (Marketplace.step s a).usedRequestIds requestId = true) := by
  constructor
  · intro msgSender msgValue now r h
    rw [Marketplace.payPerRequest_ok_used h]
    simp
  · intro hUsed
    constructor
    · intro msgSender msgValue now
      by_cases hv : msgValue = Marketplace.REQUEST_PRICE
      · simp [Marketplace.payPerRequest, hv, hUsed]
      · simp [Marketplace.payPerRequest, hv]
    · intro a
      exact Marketplace.step_preserves_used s a requestId hUsed

/-- Witness for C1: from a fresh ledger, `payPerRequest(42)` with the exact
price succeeds and marks id 42 used; retrying id 42 with the exact price
fails with `RequestIdAlreadyUsed`, retrying with one wei more fails with
`IncorrectPayment`, and a subsequent `buyPro` leaves the flag set. -/
theorem payPerRequest_single_use_witness :
    Marketplace.usedState1.usedRequestIds 42 = true
    ∧ Marketplace.payPerRequest Marketplace.usedState1 9 Marketplace.REQUEST_PRICE 42 101 =
        .error .RequestIdAlreadyUsed
    ∧ Marketplace.payPerRequest Marketplace.usedState1 9 (Marketplace.REQUEST_PRICE + 1) 42 101 =
        .error .IncorrectPayment
    ∧ (Marketplace.step Marketplace.usedState1
        (.buyProA 9 Marketplace.PREMIUM_7_DAYS_PRICE 7 101)).usedRequestIds 42 = true := by
  have hUsed : Marketplace.usedState1.usedRequestIds 42 = true := by decide
  have h := (payPerRequest_single_use Marketplace.usedState1 42).2 hUsed
  refine ⟨hUsed, ?_, ?_, h.2 _⟩
  · have := h.1 9 Marketplace.REQUEST_PRICE 101
    simpa using this
  · have heq := h.1 9 (Marketplace.REQUEST_PRICE + 1) 101
    rw [heq]
    have hv : ¬ (Marketplace.REQUEST_PRICE + 1 = Marketplace.REQUEST_PRICE) := by decide
    simp [hv]

/-- Counterexample to C1 as stated: with request id 42 already used (after a
successful first payment), a retry that sends one wei above the price fails
with `IncorrectPayment`, not with the already-used error — so "fails with the
already-used error, regardless of the amount sent with the retry" is false. -/
theorem payPerRequest_retry_error_depends_on_amount :
    (Marketplace.runMarket (Marketplace.initState 1)
        (.payPerRequestA 7 Marketplace.REQUEST_PRICE 42 100)).isOk = true
    ∧ Marketplace.usedState1.usedRequestIds 42 = true
    ∧ Marketplace.payPerRequest Marketplace.usedState1 9 (Marketplace.REQUEST_PRICE + 1) 42 101 =
        .error .IncorrectPayment
    ∧ Marketplace.MarketErr.IncorrectPayment ≠ Marketplace.MarketErr.RequestIdAlreadyUsed := by
  refine ⟨by decide, by decide, ?_, by decide⟩
  have hv : ¬ (Marketplace.REQUEST_PRICE + 1 = Marketplace.REQUEST_PRICE) := by decide
  simp [Marketplace.payPerRequest, hv]

theorem ite_max (cur now : Nat) : (if cur > now then cur else now) = max now cur := by
  rw [Nat.max_def]
  split_ifs <;> omega

theorem buyPro7_step (s : Marketplace.MarketState) (u now : Nat) :
    (Marketplace.step s (.buyProA u Marketplace.PREMIUM_7_DAYS_PRICE 7 now)).premiumExpiry u =
      (max now (s.premiumExpiry u) + 7 * 86400) % UINT256 := by
  simp [Marketplace.step, Marketplace.runMarket, Marketplace.buyPro, Marketplace.proPrice,
    Except.map, ite_max]

theorem buyPro30_step (s : Marketplace.MarketState) (u now : Nat) :
    (Marketplace.step s (.buyProA u Marketplace.PREMIUM_30_DAYS_PRICE 30 now)).premiumExpiry u =
      (max now (s.premiumExpiry u) + 30 * 86400) % UINT256 := by
  simp [Marketplace.step, Marketplace.runMarket, Marketplace.buyPro, Marketplace.proPrice,
    Except.map, ite_max]

theorem buyPro7_isOk (s : Marketplace.MarketState) (u now : Nat) :
    (Marketplace.buyPro s u Marketplace.PREMIUM_7_DAYS_PRICE 7 now).isOk = true := by
  simp [Marketplace.buyPro, Marketplace.proPrice, Except.isOk, Except.toBool]

theorem buyPro30_isOk (s : Marketplace.MarketState) (u now : Nat) :
    (Marketplace.buyPro s u Marketplace.PREMIUM_30_DAYS_PRICE 30 now).isOk = true := by
  simp [Marketplace.buyPro, Marketplace.proPrice, Except.isOk, Except.toBool]

theorem buyPro_no_shorten (s : Marketplace.MarketState) (u now : Nat)
    (hov : max now (s.premiumExpiry u) + 30 * 86400 < UINT256) :
    s.premiumExpiry u ≤ (max now (s.premiumExpiry u) + 7 * 86400) % UINT256
    ∧ s.premiumExpiry u ≤ (max now (s.premiumExpiry u) + 30 * 86400) % UINT256 := by
  have hmr := le_max_right now (s.premiumExpiry u)
  constructor
  · rw [Nat.mod_eq_of_lt (by omega)]
    omega
  · rw [Nat.mod_eq_of_lt (by omega)]
    omega

theorem buyPro7_twice (s : Marketplace.MarketState) (u t0 t1 : Nat)
    (h1 : s.premiumExpiry u ≤ t0) (h2 : t0 ≤ t1) (h3 : t1 < t0 + 7 * 86400)
    (h4 : t0 + 14 * 86400 < UINT256) :
    (Marketplace.step (Marketplace.step s
        (.buyProA u Marketplace.PREMIUM_7_DAYS_PRICE 7 t0))
        (.buyProA u Marketplace.PREMIUM_7_DAYS_PRICE 7 t1)).premiumExpiry u =
      t0 + 14 * 86400 := by
  rw [buyPro7_step, buyPro7_step]
  have hc : max t0 (s.premiumExpiry u) = t0 := max_eq_left h1
  rw [hc]
  have hi : (t0 + 7 * 86400) % UINT256 = t0 + 7 * 86400 := Nat.mod_eq_of_lt (by omega)
  rw [hi]
  have ht : max t1 (t0 + 7 * 86400) = t0 + 7 * 86400 := max_eq_right (by omega)
  rw [ht]
  exact (Nat.mod_eq_of_lt (by omega)).trans (by omega)

/-- Claim C5 (amended): `buyPro` with a valid duration (7 or 30) and exact
payment succeeds and sets the expiry to
`(max(now, currentExpiry) + duration · 86400) mod 2 ^ 256` — the addition is
`unchecked`; whenever that sum does not overflow (in particular for all
realistic timestamps) the new expiry equals `max(now, currentExpiry) +
duration` and the purchase never shortens the expiry, and two 7-day
purchases with the second made before the first expires yield
`t0 + 14 days`, not `t1 + 7 days`. -/
theorem buyPro_expiry_extension (s : Marketplace.MarketState) (u now t0 t1 : Nat) :
    ((Marketplace.buyPro s u Marketplace.PREMIUM_7_DAYS_PRICE 7 now).isOk = true
      ∧ (Marketplace.step s (.buyProA u Marketplace.PREMIUM_7_DAYS_PRICE 7 now)).premiumExpiry u =
          (max now (s.premiumExpiry u) + 7 * 86400) % UINT256)
    ∧ ((Marketplace.buyPro s u Marketplace.PREMIUM_30_DAYS_PRICE 30 now).isOk = true
      ∧ (Marketplace.step s (.buyProA u Marketplace.PREMIUM_30_DAYS_PRICE 30 now)).premiumExpiry u =
          (max now (s.premiumExpiry u) + 30 * 86400) % UINT256)
    ∧ (max now (s.premiumExpiry u) + 30 * 86400 < UINT256 →
        s.premiumExpiry u ≤ (max now (s.premiumExpiry u) + 7 * 86400) % UINT256
        ∧ s.premiumExpiry u ≤ (max now (s.premiumExpiry u) + 30 * 86400) % UINT256)
    ∧ (s.premiumExpiry u ≤ t0 → t0 ≤ t1 → t1 < t0 + 7 * 86400 →
        t0 + 14 * 86400 < UINT256 →
        (Marketplace.step (Marketplace.step s
            (.buyProA u Marketplace.PREMIUM_7_DAYS_PRICE 7 t0))
            (.buyProA u Marketplace.PREMIUM_7_DAYS_PRICE 7 t1)).premiumExpiry u =
          t0 + 14 * 86400) :=
  ⟨⟨buyPro7_isOk s u now, buyPro7_step s u now⟩,
   ⟨buyPro30_isOk s u now, buyPro30_step s u now⟩,
   buyPro_no_shorten s u now,
   buyPro7_twice s u t0 t1⟩

/-- Witness for C5 (amended): from a fresh ledger, address 4 buys the 7-day
tier at time 1000 and again at time 2000 (before expiry); the final expiry is
1000 + 14 days. -/
theorem buyPro_expiry_extension_witness :
    (Marketplace.step (Marketplace.step (Marketplace.initState 1)
        (.buyProA 4 Marketplace.PREMIUM_7_DAYS_PRICE 7 1000))
        (.buyProA 4 Marketplace.PREMIUM_7_DAYS_PRICE 7 2000)).premiumExpiry 4 =
      1000 + 14 * 86400 := by
  exact (buyPro_expiry_extension (Marketplace.initState 1) 4 0 1000 2000).2.2.2
    (by decide) (by decide) (by decide) (by decide)

/-- Counterexample to C5 as stated: the expiry addition is `unchecked`, so
from the reachable state where `premiumExpiry[5] = 2 ^ 256 - 128` (set up by
the owner via `grantPremium`), a valid exact-payment 7-day purchase at time
1000 wraps the expiry around to 604672 — strictly SHORTER than the current
expiry and different from `max(now, currentExpiry) + 7 days`. -/
theorem buyPro_wrap_shortens_expiry :
    Marketplace.bigExpiryState.premiumExpiry 5 = UINT256 - 128
    ∧ (Marketplace.buyPro Marketplace.bigExpiryState 5
        Marketplace.PREMIUM_7_DAYS_PRICE 7 1000).isOk = true
    ∧ (Marketplace.step Marketplace.bigExpiryState
        (.buyProA 5 Marketplace.PREMIUM_7_DAYS_PRICE 7 1000)).premiumExpiry 5 = 604672
    ∧ 604672 < UINT256 - 128
    ∧ 604672 ≠ max 1000 (UINT256 - 128) + 7 * 86400 := by
  refine ⟨by decide, by decide, by decide, by decide, ?_⟩
  have h : max 1000 (UINT256 - 128) = UINT256 - 128 := max_eq_right (by decide)
  rw [h]
  decide

/-- Claim C6: every payment entry point demands the exact configured price:
any other sent amount (in particular one wei under or over) makes
`payPerRequest`, `buyPro` (either valid duration) and `buyCredits` revert
with `IncorrectPayment`, leaving the storage unchanged. -/
theorem exact_payment_required (s : Marketplace.MarketState)
    (msgSender msgValue requestId now packs : Nat) :
    (msgValue ≠ Marketplace.REQUEST_PRICE →
        Marketplace.payPerRequest s msgSender msgValue requestId now =
          .error .IncorrectPayment
        ∧ Marketplace.step s (.payPerRequestA msgSender msgValue requestId now) = s)
    ∧ (msgValue ≠ Marketplace.PREMIUM_7_DAYS_PRICE →
        Marketplace.buyPro s msgSender msgValue 7 now = .error .IncorrectPayment
        ∧ Marketplace.step s (.buyProA msgSender msgValue 7 now) = s)
    ∧ (msgValue ≠ Marketplace.PREMIUM_30_DAYS_PRICE →
        Marketplace.buyPro s msgSender msgValue 30 now = .error .IncorrectPayment
        ∧ Marketplace.step s (.buyProA msgSender msgValue 30 now) = s)
    ∧ (packs ≠ 0 → msgValue ≠ (packs * Marketplace.CREDIT_PACK_PRICE) % UINT256 →
        Marketplace.buyCredits s msgSender msgValue packs = .error .IncorrectPayment
        ∧ Marketplace.step s (.buyCreditsA msgSender msgValue packs) = s) := by
  refine ⟨?_, ?_, ?_, ?_⟩
  · intro hv
    have hE : Marketplace.payPerRequest s msgSender msgValue requestId now =
        .error .IncorrectPayment := by
      simp [Marketplace.payPerRequest, hv]
    exact ⟨hE, by simp [Marketplace.step, Marketplace.runMarket, hE, Except.map]⟩
  · intro hv
    have hE : Marketplace.buyPro s msgSender msgValue 7 now = .error .IncorrectPayment := by
      simp [Marketplace.buyPro, Marketplace.proPrice, hv]
    exact ⟨hE, by simp [Marketplace.step, Marketplace.runMarket, hE, Except.map]⟩
  · intro hv
    have hE : Marketplace.buyPro s msgSender msgValue 30 now = .error .IncorrectPayment := by
      simp [Marketplace.buyPro, Marketplace.proPrice, hv]
    exact ⟨hE, by simp [Marketplace.step, Marketplace.runMarket, hE, Except.map]⟩
  · intro hp hv
    have hE : Marketplace.buyCredits s msgSender msgValue packs =
        .error .IncorrectPayment := by
      simp [Marketplace.buyCredits, hp, hv]
    exact ⟨hE, by simp [Marketplace.step, Marketplace.runMarket, hE, Except.map]⟩

/-- Witness for C6: on a fresh ledger, one wei under and one wei over the
per-request price both revert with `IncorrectPayment` and leave the state
unchanged, and likewise for the 7-day tier and a 2-pack credit purchase. -/
theorem exact_payment_required_witness :
    Marketplace.payPerRequest (Marketplace.initState 1) 7
        (Marketplace.REQUEST_PRICE - 1) 42 100 = .error .IncorrectPayment
    ∧ Marketplace.payPerRequest (Marketplace.initState 1) 7
        (Marketplace.REQUEST_PRICE + 1) 42 100 = .error .IncorrectPayment
    ∧ Marketplace.buyPro (Marketplace.initState 1) 7
        (Marketplace.PREMIUM_7_DAYS_PRICE + 1) 7 100 = .error .IncorrectPayment
    ∧ Marketplace.buyCredits (Marketplace.initState 1) 7
        (2 * Marketplace.CREDIT_PACK_PRICE % UINT256 - 1) 2 = .error .IncorrectPayment
    ∧ Marketplace.step (Marketplace.initState 1)
        (.payPerRequestA 7 (Marketplace.REQUEST_PRICE + 1) 42 100) =
      Marketplace.initState 1 := by
  refine ⟨?_, ?_, ?_, ?_, ?_⟩
  · exact ((exact_payment_required (Marketplace.initState 1) 7
      (Marketplace.REQUEST_PRICE - 1) 42 100 2).1 (by decide)).1
  · exact ((exact_payment_required (Marketplace.initState 1) 7
      (Marketplace.REQUEST_PRICE + 1) 42 100 2).1 (by decide)).1
  · exact ((exact_payment_required (Marketplace.initState 1) 7
      (Marketplace.PREMIUM_7_DAYS_PRICE + 1) 42 100 2).2.1 (by decide)).1
  · exact ((exact_payment_required (Marketplace.initState 1) 7
      (2 * Marketplace.CREDIT_PACK_PRICE % UINT256 - 1) 42 100 2).2.2.2
      (by decide) (by decide)).1
  · exact ((exact_payment_required (Marketplace.initState 1) 7
      (Marketplace.REQUEST_PRICE + 1) 42 100 2).1 (by decide)).2

theorem mod_sub_cancel (c k : Nat) (h2 : k ≤ c) (h3 : c < UINT256) :
    (c + UINT256 - k) % UINT256 = c - k := by
  have h : c + UINT256 - k = UINT256 + (c - k) := by omega
  rw [h, Nat.add_mod_left]
  exact Nat.mod_eq_of_lt (by omega)

theorem useCredits_ok_credits (s : Marketplace.MarketState) (msgSender user amount : Nat)
    (h1 : 1 ≤ amount) (h2 : amount ≤ s.credits user) (h3 : s.credits user < UINT256) :
    (Marketplace.step s (.useCreditsA msgSender user amount)).credits user =
      s.credits user - amount := by
  have hk0 : ¬ (amount = 0) := by omega
  have hno : ¬ (s.credits user < amount) := by omega
  simp [Marketplace.step, Marketplace.runMarket, Marketplace.useCredits, hk0, hno, Except.map]
  exact mod_sub_cancel (s.credits user) amount h2 h3

/-- Claim C8: `creditBalance` stays a non-negative integer across the debit
operation: `useCredits` with `k` greater than the balance reverts with
`NoCreditsAvailable` and leaves the balance unchanged, with `k ≤ balance` the
post-call balance is exactly `balance - k`, and the post-call balance never
exceeds the pre-call balance. -/
theorem useCredits_balance_safe (s : Marketplace.MarketState) (msgSender user k : Nat)
    (hlt : s.credits user < UINT256) :
    (k > s.credits user →
        Marketplace.useCredits s msgSender user k = .error .NoCreditsAvailable
        ∧ Marketplace.step s (.useCreditsA msgSender user k) = s)
    ∧ (k ≤ s.credits user →
        (Marketplace.step s (.useCreditsA msgSender user k)).credits user =
          s.credits user - k)
    ∧ (Marketplace.step s (.useCreditsA msgSender user k)).credits user ≤ s.credits user := by
  have hbig : (k > s.credits user →
      Marketplace.useCredits s msgSender user k = .error .NoCreditsAvailable
      ∧ Marketplace.step s (.useCreditsA msgSender user k) = s) := by
    intro hgt
    have hk0 : ¬ (k = 0) := by omega
    have hE : Marketplace.useCredits s msgSender user k = .error .NoCreditsAvailable := by
      simp [Marketplace.useCredits, hk0, hgt]
    exact ⟨hE, by simp [Marketplace.step, Marketplace.runMarket, hE, Except.map]⟩
  have hle : (k ≤ s.credits user →
      (Marketplace.step s (.useCreditsA msgSender user k)).credits user =
        s.credits user - k) := by
    intro h2
    rcases Nat.eq_zero_or_pos k with hk0 | hk1
    · subst hk0
      have hE : Marketplace.useCredits s msgSender user 0 = .error .InvalidPackCount := by
        simp [Marketplace.useCredits]
      have hs : Marketplace.step s (.useCreditsA msgSender user 0) = s := by
        simp [Marketplace.step, Marketplace.runMarket, hE, Except.map]
      rw [hs]
      omega
    · exact useCredits_ok_credits s msgSender user k hk1 h2 hlt
  refine ⟨hbig, hle, ?_⟩
  rcases le_or_lt k (s.credits user) with h2 | hgt
  · rw [hle h2]
    omega
  · rw [(hbig hgt).2]

/-- Witness for C8: with 5 credits on account 5 (granted by the owner),
debiting 7 credits reverts with `NoCreditsAvailable` leaving the balance at
5, while debiting 2 credits leaves exactly 3. -/
theorem useCredits_balance_safe_witness :
    Marketplace.useCredits Marketplace.creditState 9 5 7 = .error .NoCreditsAvailable
    ∧ (Marketplace.step Marketplace.creditState (.useCreditsA 9 5 7)).credits 5 = 5
    ∧ (Marketplace.step Marketplace.creditState (.useCreditsA 9 5 2)).credits 5 = 3 := by
  have h := useCredits_balance_safe Marketplace.creditState 9 5 7 (by decide)
  have h2 := useCredits_balance_safe Marketplace.creditState 9 5 2 (by decide)
  refine ⟨(h.1 (by decide)).1, ?_, ?_⟩
  · rw [(h.1 (by decide)).2]
    decide
  · rw [h2.2.1 (by decide)]
    decide

/-- Claim C9: `buyCredits` rejects `packCount = 0` with `InvalidPackCount`;
for `packCount ≥ 1` it succeeds exactly when the sent amount equals
`packCount · CREDIT_PACK_PRICE` (product taken mod `2 ^ 256`, as the source
computes it `unchecked`), and on success it increases the buyer's balance by
exactly `packCount · CREDITS_PER_PACK` (again mod `2 ^ 256`) and emits the
`CreditsPurchased` event. -/
theorem buyCredits_pack_arithmetic (s : Marketplace.MarketState)
    (msgSender msgValue packs : Nat) :
    (packs = 0 →
        Marketplace.buyCredits s msgSender msgValue packs = .error .InvalidPackCount)
    ∧ (1 ≤ packs →
        ((Marketplace.buyCredits s msgSender msgValue packs).isOk = true ↔
          msgValue = (packs * Marketplace.CREDIT_PACK_PRICE) % UINT256))
    ∧ (1 ≤ packs → msgValue = (packs * Marketplace.CREDIT_PACK_PRICE) % UINT256 →
        (Marketplace.step s (.buyCreditsA msgSender msgValue packs)).credits msgSender =
          (s.credits msgSender + (packs * Marketplace.CREDITS_PER_PACK) % UINT256) % UINT256
        ∧ (Marketplace.buyCredits s msgSender msgValue packs).map (fun r => r.2) =
            .ok (.CreditsPurchased msgSender packs
              ((packs * Marketplace.CREDITS_PER_PACK) % UINT256))) := by
  refine ⟨?_, ?_, ?_⟩
  · intro hp
    simp [Marketplace.buyCredits, hp]
  · intro hp
    have hp0 : ¬ (packs = 0) := by omega
    constructor
    · intro hok
      by_contra hne
      simp [Marketplace.buyCredits, hp0, hne, Except.isOk, Except.toBool] at hok
    · intro hveq
      simp [Marketplace.buyCredits, hp0, hveq, Except.isOk, Except.toBool]
  · intro hp hveq
    have hp0 : ¬ (packs = 0) := by omega
    constructor
    · simp [Marketplace.step, Marketplace.runMarket, Marketplace.buyCredits, hp0, hveq,
        Except.map]
    · simp [Marketplace.buyCredits, hp0, hveq, Except.map]

/-- Witness for C9: on a fresh ledger, `buyCredits(3)` paid exactly
`3 × CREDIT_PACK_PRICE` succeeds and yields a balance of 30 credits
(`3 × CREDITS_PER_PACK`), while `buyCredits(0)` reverts with
`InvalidPackCount`. -/
theorem buyCredits_pack_arithmetic_witness :
    Marketplace.buyCredits (Marketplace.initState 1) 7 0 0 = .error .InvalidPackCount
    ∧ (Marketplace.buyCredits (Marketplace.initState 1) 7
        (3 * Marketplace.CREDIT_PACK_PRICE % UINT256) 3).isOk = true
    ∧ (Marketplace.step (Marketplace.initState 1)
        (.buyCreditsA 7 (3 * Marketplace.CREDIT_PACK_PRICE % UINT256) 3)).credits 7 = 30 := by
  have h := buyCredits_pack_arithmetic (Marketplace.initState 1) 7
    (3 * Marketplace.CREDIT_PACK_PRICE % UINT256) 3
  have h0 := buyCredits_pack_arithmetic (Marketplace.initState 1) 7 0 0
  refine ⟨h0.1 (by decide), (h.2.1 (by decide)).mpr (by decide), ?_⟩
  have hc := (h.2.2 (by decide) (by decide)).1
  rw [hc]
  decide

theorem useCredit_ok_proj (s : Marketplace.MarketState) (msgSender user : Nat)
    (h1 : 1 ≤ s.credits user) (h2 : s.credits user < UINT256) :
    (Marketplace.useCredit s msgSender user).map (fun r => (r.1.credits user, r.2)) =
      .ok (s.credits user - 1, .CreditUsed user (s.credits user - 1)) := by
  have h0 : ¬ (s.credits user = 0) := by omega
  simp [Marketplace.useCredit, h0, Except.map]
  rw [mod_sub_cancel (s.credits user) 1 h1 h2]

theorem useCredits_ok_proj (s : Marketplace.MarketState) (msgSender user amount : Nat)
    (h1 : 1 ≤ amount) (h2 : amount ≤ s.credits user) (h3 : s.credits user < UINT256) :
    (Marketplace.useCredits s msgSender user amount).map (fun r => (r.1.credits user, r.2)) =
      .ok (s.credits user - amount, .CreditUsed user (s.credits user - amount)) := by
  have hk0 : ¬ (amount = 0) := by omega
  have hno : ¬ (s.credits user < amount) := by omega
  simp [Marketplace.useCredits, hk0, hno, Except.map]
  rw [mod_sub_cancel (s.credits user) amount h2 h3]

/-- Claim C2 (amended): `useCredit` and `useCredits` carry NO caller
restriction — their result is independent of `msg.sender`, so any caller
(not only a designated operator) can debit any account (a documented
hackathon-MVP trust assumption in the source); for every caller they fail
with `NoCreditsAvailable` when the balance is below the requested amount
(`useCredits` additionally rejects amount 0 with `InvalidPackCount`), and
otherwise debit exactly the requested amount and emit a `CreditUsed`
event. -/
theorem useCredits_open_access (s : Marketplace.MarketState) (msgSender user amount : Nat) :
    (Marketplace.useCredits s msgSender user amount =
      Marketplace.useCredits s s.owner user amount)
    ∧ (Marketplace.useCredit s msgSender user = Marketplace.useCredit s s.owner user)
    ∧ (amount ≠ 0 → s.credits user < amount →
        Marketplace.useCredits s msgSender user amount = .error .NoCreditsAvailable)
    ∧ (Marketplace.useCredits s msgSender user 0 = .error .InvalidPackCount)
    ∧ (1 ≤ amount → amount ≤ s.credits user → s.credits user < UINT256 →
        (Marketplace.useCredits s msgSender user amount).map
            (fun r => (r.1.credits user, r.2)) =
          .ok (s.credits user - amount, .CreditUsed user (s.credits user - amount)))
    ∧ (s.credits user = 0 →
        Marketplace.useCredit s msgSender user = .error .NoCreditsAvailable)
    ∧ (1 ≤ s.credits user → s.credits user < UINT256 →
        (Marketplace.useCredit s msgSender user).map (fun r => (r.1.credits user, r.2)) =
          .ok (s.credits user - 1, .CreditUsed user (s.credits user - 1))) := by
  refine ⟨rfl, rfl, ?_, ?_, ?_, ?_, ?_⟩
  · intro h0 hlt
    simp [Marketplace.useCredits, h0, hlt]
  · simp [Marketplace.useCredits]
  · exact useCredits_ok_proj s msgSender user amount
  · intro h0
    simp [Marketplace.useCredit, h0]
  · exact useCredit_ok_proj s msgSender user

/-- Witness for C2 (amended): with 5 credits on account 5, a non-owner
caller's `useCredits(5, 7)` reverts with `NoCreditsAvailable`, its
`useCredits(5, 0)` reverts with `InvalidPackCount`, and its
`useCredits(5, 2)` debits to 3 and emits `CreditUsed(5, 3)`. -/
theorem useCredits_open_access_witness :
    Marketplace.useCredits Marketplace.creditState 2 5 7 = .error .NoCreditsAvailable
    ∧ Marketplace.useCredits Marketplace.creditState 2 5 0 = .error .InvalidPackCount
    ∧ (Marketplace.useCredits Marketplace.creditState 2 5 2).map
        (fun r => (r.1.credits 5, r.2)) = .ok (3, .CreditUsed 5 3) := by
  have h := useCredits_open_access Marketplace.creditState 2 5 7
  have h2 := useCredits_open_access Marketplace.creditState 2 5 2
  refine ⟨h.2.2.1 (by decide) (by decide), h.2.2.2.1, ?_⟩
  have hm := h2.2.2.2.2.1 (by decide) (by decide) (by decide)
  rw [hm]
  rfl

/-- Counterexample to C2 as stated: two DISTINCT non-owner callers (2 and 3)
both successfully debit account 5 via `useCredits` from the reachable state
where account 5 holds 5 credits; since a "designated operator" is a single
identity, at least one of these callers is not the operator, yet its call
succeeds and debits — so "for every caller other than that operator, the
call fails without debiting" is false. -/
theorem useCredits_lacks_operator_check :
    Marketplace.creditState.owner = 1
    ∧ Marketplace.creditState.credits 5 = 5
    ∧ (Marketplace.useCredits Marketplace.creditState 2 5 2).isOk = true
    ∧ (Marketplace.step Marketplace.creditState (.useCreditsA 2 5 2)).credits 5 = 3
    ∧ (Marketplace.useCredits Marketplace.creditState 3 5 2).isOk = true
    ∧ (Marketplace.step Marketplace.creditState (.useCreditsA 3 5 2)).credits 5 = 3
    ∧ (2 : Nat) ≠ 3 ∧ (2 : Nat) ≠ 1 ∧ (3 : Nat) ≠ 1 := by
  refine ⟨by decide, by decide, by decide, by decide, by decide, by decide,
    by decide, by decide, by decide⟩

/-- Claim C3: a successful `processPayment` marks `(signer, nonce)` used;
from any state where `(signer, nonce)` is used, every later `processPayment`
with that pair reverts with the invalid-signature require, for every amount,
deadline, memo, signature and token authorization; and any reverting
`processPayment` — in particular one whose verification step does not return
true — leaves the storage (and hence the nonce) unchanged. -/
theorem processPayment_nonce_single_use (env : Processor.ProcEnv) (st : Processor.ProcState)
    (fromAddr amount nonce deadline : Nat) (memo : String) (signature : List Nat)
    (auth : Processor.USDCAuth) (now : Nat) :
    (∀ r, Processor.processPayment env st fromAddr amount nonce deadline memo signature
        auth now = .ok r → r.1.usedNonces fromAddr nonce = true)
    ∧ (st.usedNonces fromAddr nonce = true →
        ∀ amount2 deadline2 memo2 signature2 auth2 now2,
          Processor.processPayment env st fromAddr amount2 nonce deadline2 memo2 signature2
            auth2 now2 = .error .InvalidPaymentSignature)
    ∧ (∀ e, Processor.processPayment env st fromAddr amount nonce deadline memo signature
        auth now = .error e →
        Processor.stepProc env st fromAddr amount nonce deadline memo signature auth now = st)
    ∧ (Processor.verifyPaymentSignature env st fromAddr amount nonce deadline memo signature
        now ≠ .ok true →
        (Processor.processPayment env st fromAddr amount nonce deadline memo signature
          auth now).isOk = false
        ∧ Processor.stepProc env st fromAddr amount nonce deadline memo signature auth now =
            st) := by
  refine ⟨?_, ?_, ?_, ?_⟩
  · intro r h
    unfold Processor.processPayment at h
    split at h
    · exact absurd h (by simp)
    · exact absurd h (by simp)
    · split at h
      · cases h
        simp
      · exact absurd h (by simp)
  · intro hUsed amount2 deadline2 memo2 signature2 auth2 now2
    have hv : Processor.verifyPaymentSignature env st fromAddr amount2 nonce deadline2 memo2
        signature2 now2 = .ok false := by
      simp [Processor.verifyPaymentSignature, hUsed]
    simp [Processor.processPayment, hv]
  · intro e h
    simp [Processor.stepProc, h]
  · intro hv
    rcases hver : Processor.verifyPaymentSignature env st fromAddr amount nonce deadline memo
        signature now with e | b
    · have hE : Processor.processPayment env st fromAddr amount nonce deadline memo signature
          auth now = .error e := by
        simp [Processor.processPayment, hver]
      exact ⟨by simp [hE, Except.isOk, Except.toBool],
        by simp [Processor.stepProc, hE]⟩
    · cases b with
      | false =>
        have hE : Processor.processPayment env st fromAddr amount nonce deadline memo signature
            auth now = .error .InvalidPaymentSignature := by
          simp [Processor.processPayment, hver]
        exact ⟨by simp [hE, Except.isOk, Except.toBool],
          by simp [Processor.stepProc, hE]⟩
      | true => exact absurd hver hv

/-- Witness for C3: with the concrete primitives, settling nonce 11 for
signer 5 succeeds and marks it used; a second settlement of nonce 11 for
signer 5 with a different amount, deadline and memo reverts with the
invalid-signature require and leaves the state unchanged. -/
theorem processPayment_nonce_single_use_witness :
    Processor.stUsed.usedNonces 5 11 = true
    ∧ Processor.processPayment Processor.envW Processor.stUsed 5 200 11 2000 "retry"
        Processor.sigW Processor.authW 600 = .error .InvalidPaymentSignature
    ∧ Processor.stepProc Processor.envW Processor.stUsed 5 200 11 2000 "retry"
        Processor.sigW Processor.authW 600 = Processor.stUsed := by
  have h0 := processPayment_nonce_single_use Processor.envW Processor.stFresh 5 100 11 1000 ""
    Processor.sigW Processor.authW 500
  have h := processPayment_nonce_single_use Processor.envW Processor.stUsed 5 200 11 2000 "retry"
    Processor.sigW Processor.authW 600
  have hok : Processor.processPayment Processor.envW Processor.stFresh 5 100 11 1000 ""
      Processor.sigW Processor.authW 500 =
        .ok (Processor.stUsed, .PaymentProcessed 5 100 0) := rfl
  have hflag : Processor.stUsed.usedNonces 5 11 = true :=
    h0.1 (Processor.stUsed, .PaymentProcessed 5 100 0) hok
  have herr := h.2.1 hflag 200 2000 "retry" Processor.sigW Processor.authW 600
  exact ⟨hflag, herr, h.2.2.1 .InvalidPaymentSignature herr⟩

/-- Claim C4 (amended): `verifyPaymentSignature` returns `false` without
reverting whenever the nonce is already used for the signer or the deadline
has passed (these checks run first); with a fresh nonce and a live deadline
and a well-formed 65-byte signature it returns exactly the comparison of the
recovered signer with the claimed address (true iff they match); but with a
fresh nonce, a live deadline and a signature whose length is NOT 65 it
REVERTS via the `require` in `splitSignature` rather than returning
false. -/
theorem verifyPaymentSignature_fails_closed (env : Processor.ProcEnv)
    (st : Processor.ProcState) (fromAddr amount nonce deadline : Nat) (memo : String)
    (signature : List Nat) (now : Nat) :
    (st.usedNonces fromAddr nonce = true →
        Processor.verifyPaymentSignature env st fromAddr amount nonce deadline memo signature
          now = .ok false)
    ∧ (now > deadline →
        Processor.verifyPaymentSignature env st fromAddr amount nonce deadline memo signature
          now = .ok false)
    ∧ (st.usedNonces fromAddr nonce = false → now ≤ deadline →
        ∀ r sv v, Processor.splitSignature signature = .ok (r, sv, v) →
          Processor.verifyPaymentSignature env st fromAddr amount nonce deadline memo
            signature now =
            .ok (decide (env.ecrecover
              (env.paymentDigest fromAddr amount nonce deadline memo) v r sv = fromAddr)))
    ∧ (st.usedNonces fromAddr nonce = false → now ≤ deadline → signature.length ≠ 65 →
        Processor.verifyPaymentSignature env st fromAddr amount nonce deadline memo signature
          now = .error .InvalidSignatureLength) := by
  refine ⟨?_, ?_, ?_, ?_⟩
  · intro hUsed
    simp [Processor.verifyPaymentSignature, hUsed]
  · intro hLate
    by_cases hUsed : st.usedNonces fromAddr nonce
    · simp [Processor.verifyPaymentSignature, hUsed]
    · simp [Processor.verifyPaymentSignature, hUsed, hLate]
  · intro hUsed hLive r sv v hsplit
    have hnl : ¬ (now > deadline) := by omega
    simp [Processor.verifyPaymentSignature, hUsed, hnl, hsplit]
  · intro hUsed hLive hlen
    have hnl : ¬ (now > deadline) := by omega
    have hsplit : Processor.splitSignature signature = .error .InvalidSignatureLength := by
      simp [Processor.splitSignature, hlen]
    simp [Processor.verifyPaymentSignature, hUsed, hnl, hsplit]

/-- Witness for C4 (amended): used nonce → `ok false`; expired deadline →
`ok false`; fresh and live with a 65-byte signature → `ok true` when the
recovered signer matches and `ok false` when it does not; fresh and live
with an empty signature → revert. -/
theorem verifyPaymentSignature_fails_closed_witness :
    Processor.verifyPaymentSignature Processor.envW Processor.stUsed 5 100 11 1000 ""
        Processor.sigW 500 = .ok false
    ∧ Processor.verifyPaymentSignature Processor.envW Processor.stFresh 5 100 11 1000 ""
        Processor.sigW 2000 = .ok false
    ∧ Processor.verifyPaymentSignature Processor.envW Processor.stFresh 5 100 11 1000 ""
        Processor.sigW 500 = .ok true
    ∧ Processor.verifyPaymentSignature Processor.envW Processor.stFresh 4 100 11 1000 ""
        Processor.sigW 500 = .ok false
    ∧ Processor.verifyPaymentSignature Processor.envW Processor.stFresh 5 100 11 1000 ""
        [] 500 = .error .InvalidSignatureLength := by
  have h1 := verifyPaymentSignature_fails_closed Processor.envW Processor.stUsed 5 100 11 1000
    "" Processor.sigW 500
  have h2 := verifyPaymentSignature_fails_closed Processor.envW Processor.stFresh 5 100 11 1000
    "" Processor.sigW 2000
  have h3 := verifyPaymentSignature_fails_closed Processor.envW Processor.stFresh 5 100 11 1000
    "" Processor.sigW 500
  have h4 := verifyPaymentSignature_fails_closed Processor.envW Processor.stFresh 4 100 11 1000
    "" Processor.sigW 500
  have h5 := verifyPaymentSignature_fails_closed Processor.envW Processor.stFresh 5 100 11 1000
    "" ([] : List Nat) 500
  refine ⟨h1.1 (by decide), h2.2.1 (by decide), ?_, ?_, ?_⟩
  · have hx := h3.2.2.1 (by decide) (by decide) 0 0 0 rfl
    exact hx.trans (by rfl)
  · have hx := h4.2.2.1 (by decide) (by decide) 0 0 0 rfl
    exact hx.trans (by rfl)
  · exact h5.2.2.2 (by decide) (by decide) (by decide)

theorem creditCost_pos (cap : Backend.Capability) : 1 ≤ Backend.creditCost cap := by
  cases cap <;> decide

/-- Claim C7: the access decision resolves tiers in strict priority order
with first match winning: active premium resolves as premium with no credit
debit regardless of the credit balance; no premium with
`credits ≥ CREDIT_COSTS[capability]` resolves as credits and the route's
debit step removes exactly that cost from the on-chain balance; neither, but
a supplied request id that is reported used, resolves as per-request with no
further debit; otherwise the decision is a deny carrying `config.pricing`. -/
theorem checkAccess_priority_order (credits : Nat) (requestId : Option Nat)
    (used : Nat → Bool) (cap : Backend.Capability) (s : Marketplace.MarketState)
    (backendSigner address : Nat) :
    (Backend.checkAccess true credits requestId used cap = .premiumAccess
      ∧ Backend.generateDebit s backendSigner address .premiumAccess = s)
    ∧ (Backend.creditCost cap ≤ credits →
        Backend.checkAccess false credits requestId used cap =
          .creditsAccess (Backend.creditCost cap) (credits - Backend.creditCost cap))
    ∧ (Backend.creditCost cap ≤ credits → s.credits address = credits → credits < UINT256 →
        (Backend.generateDebit s backendSigner address
            (Backend.checkAccess false credits requestId used cap)).credits address =
          credits - Backend.creditCost cap)
    ∧ (credits < Backend.creditCost cap → ∀ rid, used rid = true →
        Backend.checkAccess false credits (some rid) used cap = .perRequestAccess
        ∧ Backend.generateDebit s backendSigner address .perRequestAccess = s)
    ∧ (credits < Backend.creditCost cap →
        Backend.checkAccess false credits none used cap = .denied Backend.configPricing)
    ∧ (credits < Backend.creditCost cap → ∀ rid, used rid = false →
        Backend.checkAccess false credits (some rid) used cap =
          .denied Backend.configPricing) := by
  refine ⟨⟨by simp [Backend.checkAccess], rfl⟩, ?_, ?_, ?_, ?_, ?_⟩
  · intro hc
    simp [Backend.checkAccess, hc]
  · intro hc hs hlt
    have hacc : Backend.checkAccess false credits requestId used cap =
        .creditsAccess (Backend.creditCost cap) (credits - Backend.creditCost cap) := by
      simp [Backend.checkAccess, hc]
    have h1 : 1 ≤ Backend.creditCost cap := creditCost_pos cap
    have h2 : Backend.creditCost cap ≤ s.credits address := by rw [hs]; exact hc
    have h3 : s.credits address < UINT256 := by rw [hs]; exact hlt
    have hdeb := useCredits_ok_credits s backendSigner address (Backend.creditCost cap) h1 h2 h3
    rw [hacc]
    simp only [Backend.generateDebit]
    rw [if_pos (by omega : Backend.creditCost cap > 0)]
    rw [hdeb, hs]
  · intro hc rid hrid
    have hnc : ¬ (Backend.creditCost cap ≤ credits) := by omega
    exact ⟨by simp [Backend.checkAccess, hnc, hrid], rfl⟩
  · intro hc
    have hnc : ¬ (Backend.creditCost cap ≤ credits) := by omega
    simp [Backend.checkAccess, hnc]
  · intro hc rid hrid
    have hnc : ¬ (Backend.creditCost cap ≤ credits) := by omega
    simp [Backend.checkAccess, hnc, hrid]

/-- Witness for C7: for an image request (cost 3) against the ledger where
account 5 holds 5 credits: premium wins with no debit; without premium the
5 credits resolve as credits with remainder 2 and the route's debit leaves 2
on chain; with only 2 credits a used id 42 resolves as per-request; an
unused id 43 or no id at all is denied with `config.pricing`. -/
theorem checkAccess_priority_order_witness :
    Backend.checkAccess true 5 (some 42) Backend.usedW .image = .premiumAccess
    ∧ Backend.checkAccess false 5 (some 42) Backend.usedW .image = .creditsAccess 3 2
    ∧ (Backend.generateDebit Marketplace.creditState 9 5
        (Backend.checkAccess false 5 none Backend.usedW .image)).credits 5 = 2
    ∧ Backend.checkAccess false 2 (some 42) Backend.usedW .image = .perRequestAccess
    ∧ Backend.checkAccess false 2 (some 43) Backend.usedW .image =
        .denied Backend.configPricing
    ∧ Backend.checkAccess false 2 none Backend.usedW .image =
        .denied Backend.configPricing := by
  have hp := checkAccess_priority_order 5 (some 42) Backend.usedW .image
    Marketplace.creditState 9 5
  have hd := checkAccess_priority_order 5 none Backend.usedW .image
    Marketplace.creditState 9 5
  have hl := checkAccess_priority_order 2 (some 42) Backend.usedW .image
    Marketplace.creditState 9 5
  have hm := checkAccess_priority_order 2 (some 43) Backend.usedW .image
    Marketplace.creditState 9 5
  have hn := checkAccess_priority_order 2 none Backend.usedW .image
    Marketplace.creditState 9 5
  refine ⟨hp.1.1, hp.2.1 (by decide), ?_, (hl.2.2.2.1 (by decide) 42 (by decide)).1,
    hm.2.2.2.2.2 (by decide) 43 (by decide), hn.2.2.2.2.1 (by decide)⟩
  exact (hd.2.2.1 (by decide) (by decide) (by decide)).trans (by decide)

/-- Claim C10: `verifyWalletAuth` enforces its 5-minute age window only when
the request body carries a truthy `timestamp`: with the field absent or 0
the outcome is independent of the current time — a signed message of any age
is accepted provided the recovered signer matches the claimed address
case-insensitively — while with a truthy `timestamp` older than the window
the request is rejected as expired. -/
theorem verifyWalletAuth_age_check_conditional
    (recover : String → String → Option String) (req : Backend.AuthRequest)
    (now1 now2 t : Nat) :
    ((req.timestamp = none ∨ req.timestamp = some 0) →
        Backend.verifyWalletAuth recover now1 req = Backend.verifyWalletAuth recover now2 req)
    ∧ (∀ addr sig msg rec, req.address = some addr → req.signature = some sig →
        req.message = some msg → addr ≠ "" → sig ≠ "" → msg ≠ "" →
        (req.timestamp = none ∨ req.timestamp = some 0) →
        recover msg sig = some rec → Backend.toLowerStr rec = Backend.toLowerStr addr →
        Backend.verifyWalletAuth recover now1 req = .authorized rec)
    ∧ (∀ addr sig msg, req.address = some addr → req.signature = some sig →
        req.message = some msg → addr ≠ "" → sig ≠ "" → msg ≠ "" →
        req.timestamp = some t → t ≠ 0 → now1 - t > Backend.MAX_SIGNATURE_AGE_MS →
        Backend.verifyWalletAuth recover now1 req = .signatureExpired) := by
  refine ⟨?_, ?_, ?_⟩
  · intro ht
    have hf : Backend.truthyNat req.timestamp = false := by
      rcases ht with h | h <;> simp [h, Backend.truthyNat]
    simp [Backend.verifyWalletAuth, hf]
  · intro addr sig msg rec haddr hsig hmsg hna hns hnm ht hrec hlow
    have hf : Backend.truthyNat req.timestamp = false := by
      rcases ht with h | h <;> simp [h, Backend.truthyNat]
    simp [Backend.verifyWalletAuth, haddr, hsig, hmsg, Backend.truthyStr, hna, hns, hnm, hf,
      Backend.walletAuthRecover, hrec, hlow]
  · intro addr sig msg haddr hsig hmsg hna hns hnm ht hnz hage
    have hft : Backend.truthyNat (some t) = true := by
      simp [Backend.truthyNat, hnz]
    simp [Backend.verifyWalletAuth, haddr, hsig, hmsg, Backend.truthyStr, hna, hns, hnm,
      ht, hft, hage]

/-- Witness for C10: with no timestamp field, a request signed long ago
(current time arbitrarily large) is authorized because the recovered signer
matches the claimed address case-insensitively, and the outcome at time 0
and at time 10^15 is identical; with `timestamp = 1000` and the clock far
past the 5-minute window, the same request is rejected as expired. -/
theorem verifyWalletAuth_age_check_conditional_witness :
    Backend.verifyWalletAuth Backend.recoverW (10 ^ 15) Backend.reqNoTs =
        .authorized "0xAbCD"
    ∧ Backend.verifyWalletAuth Backend.recoverW 0 Backend.reqNoTs =
        Backend.verifyWalletAuth Backend.recoverW (10 ^ 15) Backend.reqNoTs
    ∧ Backend.verifyWalletAuth Backend.recoverW (10 ^ 15) Backend.reqOldTs =
        .signatureExpired := by
  have h1 := verifyWalletAuth_age_check_conditional Backend.recoverW Backend.reqNoTs
    (10 ^ 15) 0 0
  have h2 := verifyWalletAuth_age_check_conditional Backend.recoverW Backend.reqNoTs
    0 (10 ^ 15) 0
  have h3 := verifyWalletAuth_age_check_conditional Backend.recoverW Backend.reqOldTs
    (10 ^ 15) 0 1000
  refine ⟨?_, h2.1 (Or.inl rfl), ?_⟩
  · exact h1.2.1 "0xabcd" "sig1" "login" "0xAbCD" rfl rfl rfl (by decide) (by decide)
      (by decide) (Or.inl rfl) (by decide) (by decide)
  · exact h3.2.2 "0xabcd" "sig1" "login" rfl rfl rfl (by decide) (by decide) (by decide)
      rfl (by decide) (by decide)

/-- Counterexample to C4 as stated: `verifyPaymentSignature` does NOT return
false for every input — with a fresh nonce and a live deadline, an empty
signature byte string makes `splitSignature`'s length `require` fire, so the
call REVERTS instead of returning false. -/
theorem verifyPaymentSignature_reverts_on_length :
    Processor.verifyPaymentSignature Processor.envW Processor.stFresh 5 100 11 1000 "" [] 0 =
      .error .InvalidSignatureLength
    ∧ (Except.error Processor.ProcErr.InvalidSignatureLength :
        Except Processor.ProcErr Bool) ≠ .ok false
    ∧ (Except.error Processor.ProcErr.InvalidSignatureLength :
        Except Processor.ProcErr Bool) ≠ .ok true := by
  exact ⟨rfl, by simp, by simp⟩
